import Mathlib

/-!
Verification development for the bandit static security-analysis engine.

The repository ships the B103 plugin (`bandit/plugins/general_bad_file_permissions.py`)
together with its unit and functional tests.  The core modules
(`bandit.core.banlisting`, `bandit.core.test_set`, `bandit.core.issue`,
`bandit.core.node_visitor`, `bandit.core.metrics`, `bandit.core.manager`) are not
part of the source tree here; where a definition embeds one of those missing
modules it is modelled from the specification text (and the shipped unit tests
that exercise it), and its doc comment says so.
-/

set_option autoImplicit false

namespace Bandit

/-- The ordered ranking levels shared by severity and confidence
(`constants.RANKING = [UNDEFINED, LOW, MEDIUM, HIGH]`). -/
inductive RankLevel
  | UNDEFINED
  | LOW
  | MEDIUM
  | HIGH
deriving DecidableEq, Repr

/-- `stat.S_IWOTH`: the world-writable permission bit (octal 0o002). -/
def S_IWOTH : Nat := 2

/-- `stat.S_IXGRP`: the group-executable permission bit (octal 0o010). -/
def S_IXGRP : Nat := 8

/-- One finding, following the Issue data model of the spec: rule identifier,
severity, confidence, CWE id, message text, file path, primary line number and
line range.  `fname`, `lineno` and `linerange` are attached by the visitor
after rule evaluation, hence their defaults. -/
structure Issue where
  test_id : String
  severity : RankLevel
  confidence : RankLevel
  text : String
  cwe : Nat := 0
  fname : String := ""
  lineno : Nat := 0
  linerange : List Nat := []
deriving DecidableEq, Repr

/-- Python's `needle in hay` substring test on strings. -/
def strContains (hay needle : String) : Bool :=
  (List.range (hay.length + 1)).any (fun i =>
    (hay.toList.drop i).take needle.length == needle.toList)

/-- Python's `oct` on a non-negative integer: `oct 511 = "0o777"`. -/
def pyOct (n : Nat) : String :=
  "0o" ++ (Nat.toDigits 8 n).asString

/-- A positional call argument as the plugin context sees it: an integer
literal, a string literal, or something that is not a literal (name, call,
expression, ...), for which literal extraction yields `None`. -/
inductive ArgLit
  | intLit (n : Nat)
  | strLit (s : String)
  | nonLiteral
deriving DecidableEq, Repr

/-- The slice of the per-call context that `set_bad_file_permissions` consults:
the called function's name and its positional-argument list. -/
structure CallCtx where
  call_function_name : String
  call_args : List ArgLit
deriving DecidableEq, Repr

/-- `context.call_args_count`. -/
def CallCtx.call_args_count (ctx : CallCtx) : Nat := ctx.call_args.length

/-- `context.get_call_arg_at_position(p)`: the literal value of the `p`-th
positional argument, `none` when out of range or not a literal. -/
def get_call_arg_at_position (ctx : CallCtx) (p : Nat) : Option ArgLit :=
  match ctx.call_args.get? p with
  | some ArgLit.nonLiteral => none
  | r => r

/-- Python `%s` rendering of a literal argument value. -/
def argStr : ArgLit → String
  | ArgLit.intLit n => toString n
  | ArgLit.strLit s => s
  | ArgLit.nonLiteral => ""

/-- The B103 rule body, embedded from
`bandit/plugins/general_bad_file_permissions.py`: fire only on calls whose
function name contains `chmod` with exactly two arguments whose second is an
integer literal; world-writable gives HIGH severity, otherwise group-executable
gives MEDIUM; confidence is always HIGH. -/
def set_bad_file_permissions (context : CallCtx) : Option Issue :=
  if strContains context.call_function_name "chmod" then
    if context.call_args_count == 2 then
      match get_call_arg_at_position context 1 with
      | some (ArgLit.intLit mode) =>
        if mode &&& S_IWOTH != 0 || mode &&& S_IXGRP != 0 then
          let sev_level :=
            if mode &&& S_IWOTH != 0 then RankLevel.HIGH else RankLevel.MEDIUM
          let filename :=
            match get_call_arg_at_position context 0 with
            | some v => argStr v
            | none => "NOT PARSED"
          some { test_id := "B103"
               , severity := sev_level
               , cwe := 732
               , confidence := RankLevel.HIGH
               , text := "Chmod setting a permissive mask " ++ pyOct mode ++
                   " on file (" ++ filename ++ ")." }
        else none
      | _ => none
    else none
  else none

/-- A blocklist table entry: human label, optional rule id, the set of
fully-qualified names that trigger it, a message template with a `{name}`
slot, and an optional severity level. -/
structure BlEntry where
  name : String
  id : Option String := none
  qualnames : List String := []
  message : String
  level : Option RankLevel := none
deriving DecidableEq, Repr

/-- Modelled from the spec: `bandit.core.banlisting.report_issue` is not in
`src/`.  Per spec section 4.2 and the shipped unit tests
(`tests/unit/core/test_blacklisting.py`), the Issue built for a matched entry
substitutes the matched name into the message template, has confidence fixed
at HIGH, severity the entry's level defaulting to MEDIUM, and rule id the
entry's id defaulting to `LEGACY`. -/
def report_issue (data : BlEntry) (name : String) : Issue :=
  { test_id := data.id.getD "LEGACY"
  , severity := data.level.getD RankLevel.MEDIUM
  , confidence := RankLevel.HIGH
  , text := data.message.replace "{name}" name }

/-- Exact-equality membership of a resolved qualified name in an entry's
qualified-names set. -/
def qualnamesMatch : List String → String → Bool
  | [], _ => false
  | q :: qs, n => q == n || qualnamesMatch qs n

/-- Modelled from the spec: the blocklist evaluation entry point of
`bandit.core.banlisting` is not in `src/`.  Per spec section 4.2, given the
table for a node kind and the node's resolved fully-qualified name it returns
one Issue per entry whose qualified-names set contains that name. -/
def blocklistEval : List BlEntry → String → List Issue
  | [], _ => []
  | e :: rest, n =>
    if qualnamesMatch e.qualnames n then report_issue e n :: blocklistEval rest n
    else blocklistEval rest n

/-- An ordinary rule registration: stable identifier plus the node kinds it
triggers on. -/
structure Rule where
  id : String
  kinds : List String
deriving DecidableEq, Repr

/-- The identifier a blocklist entry is filtered by (its id, `LEGACY` when
absent). -/
def entryId (e : BlEntry) : String := e.id.getD "LEGACY"

/-- Modelled from the spec: the profile-filter predicate of
`bandit.core.test_set` is not in `src/`.  Per spec section 4.3 step 3: a
non-empty `include` keeps exactly the identifiers it lists (`exclude` is then
ignored); otherwise a non-empty `exclude` drops exactly the identifiers it
lists; both empty keeps everything. -/
def keepId (inc exc : List String) (i : String) : Bool :=
  if inc.isEmpty then !(exc.contains i) else inc.contains i

/-- Profile filtering of ordinary rules by identifier. -/
def filterRules (inc exc : List String) (rules : List Rule) : List Rule :=
  rules.filter (fun r => keepId inc exc r.id)

/-- Profile filtering of the blocklist entries of one node kind by
identifier. -/
def filterEntries (inc exc : List String) (es : List BlEntry) : List BlEntry :=
  es.filter (fun e => keepId inc exc (entryId e))

/-- A rule as stored in the dispatch table: an ordinary rule, or a
blocklist-rule instance scoped to one node kind and holding that kind's
surviving entries. -/
inductive TestRule
  | ordinary (r : Rule)
  | blocklistFor (entries : List BlEntry)
deriving DecidableEq, Repr

/-- Append a rule to the dispatch-table bucket of kind `k`, creating the
bucket if the kind is not yet registered. -/
def tableAdd (t : List (String × List TestRule)) (k : String) (tr : TestRule) :
    List (String × List TestRule) :=
  match t with
  | [] => [(k, [tr])]
  | kv :: rest =>
    if kv.1 == k then (kv.1, kv.2 ++ [tr]) :: rest else kv :: tableAdd rest k tr

/-- Register an ordinary rule under every node kind it declares. -/
def addRuleKinds (t : List (String × List TestRule)) (r : Rule) :
    List (String × List TestRule) :=
  r.kinds.foldl (fun acc k => tableAdd acc k (TestRule.ordinary r)) t

/-- Register one node kind's blocklist entries: a kind whose filtered entry
list is empty gets no blocklist-rule instance at all. -/
def blStep (inc exc : List String) (t : List (String × List TestRule))
    (kv : String × List BlEntry) : List (String × List TestRule) :=
  if (filterEntries inc exc kv.2).isEmpty then t
  else tableAdd t kv.1 (TestRule.blocklistFor (filterEntries inc exc kv.2))

/-- Modelled from the spec: the registry build of `bandit.core.test_set` is
not in `src/`.  Per spec section 4.3 steps 3-4: apply profile filtering, insert
the surviving ordinary rules under their kinds, then for every node kind with
at least one surviving blocklist entry insert a blocklist-rule instance scoped
to that kind. -/
def buildRegistry (inc exc : List String) (rules : List Rule)
    (bl : List (String × List BlEntry)) : List (String × List TestRule) :=
  bl.foldl (blStep inc exc) ((filterRules inc exc rules).foldl addRuleKinds [])

/-- Modelled from the spec: `BanditTestSet.get_tests` of
`bandit.core.test_set` is not in `src/`.  Per spec section 4.3 step 5: lookup
of the ordered rule sequence for a node kind; an unregistered kind yields the
empty sequence, not an error. -/
def get_tests (t : List (String × List TestRule)) (k : String) : List TestRule :=
  match t with
  | [] => []
  | kv :: rest => if kv.1 == k then kv.2 else get_tests rest k

/-- `sfx b a`: the characters of `b` are a suffix of the characters of `a`
(a relative path against an absolute spelling of the same path). -/
def sfx (b a : String) : Bool :=
  a.toList.drop (a.toList.length - b.toList.length) == b.toList

/-- Suffix-insensitive file-path comparison for baseline matching (absolute
vs relative spellings of the same path). -/
def pathMatch (a b : String) : Bool :=
  sfx b a || sfx a b

/-- Modelled from the spec: `Issue.matches` of `bandit.core.issue` is not in
`src/`.  Per spec section 4.1: equality of rule id, file path
(suffix-insensitive) and message text; line numbers play no part. -/
def Issue.matches (a b : Issue) : Bool :=
  a.test_id == b.test_id && pathMatch a.fname b.fname && a.text == b.text

/-- Modelled from the spec: the baseline filter of `bandit.core.manager` is
not in `src/`.  Per spec section 4.5: keep exactly the current Issues with no
`matches` counterpart in the baseline, preserving their original order. -/
def baselineFilter (baseline current : List Issue) : List Issue :=
  current.filter (fun i => !(baseline.any (fun b => Issue.matches i b)))

/-- A syntax-tree node as the suppression model needs it: its primary source
line. -/
structure Node where
  lineno : Nat
deriving DecidableEq, Repr

/-- Modelled from the spec: the tree walk of `bandit.core.node_visitor` is not
in `src/`.  Per spec section 4.4: visiting a node whose line carries a
suppression directive invokes no rules for it; otherwise the node's rules run
and their Issues are collected in discovery order. -/
def visitFile (evalNode : Node → List Issue) (nodes : List Node)
    (nosec : List Nat) : List Issue :=
  match nodes with
  | [] => []
  | nd :: rest =>
    (if nosec.contains nd.lineno then [] else evalNode nd) ++
      visitFile evalNode rest nosec

/-- Modelled from the spec: the per-file Metrics record of
`bandit.core.metrics` is not in `src/`.  Per spec sections 3 and 4.5: lines of
code, suppression-directive count, skipped-test count, and issue counters per
severity and per confidence level. -/
structure MetricsRec where
  loc : Nat := 0
  nosec : Nat := 0
  skipped_tests : Nat := 0
  sevUndefined : Nat := 0
  sevLow : Nat := 0
  sevMedium : Nat := 0
  sevHigh : Nat := 0
  confUndefined : Nat := 0
  confLow : Nat := 0
  confMedium : Nat := 0
  confHigh : Nat := 0
deriving DecidableEq, Repr

/-- Element-wise sum of two Metrics records. -/
def addM (a b : MetricsRec) : MetricsRec :=
  { loc := a.loc + b.loc
  , nosec := a.nosec + b.nosec
  , skipped_tests := a.skipped_tests + b.skipped_tests
  , sevUndefined := a.sevUndefined + b.sevUndefined
  , sevLow := a.sevLow + b.sevLow
  , sevMedium := a.sevMedium + b.sevMedium
  , sevHigh := a.sevHigh + b.sevHigh
  , confUndefined := a.confUndefined + b.confUndefined
  , confLow := a.confLow + b.confLow
  , confMedium := a.confMedium + b.confMedium
  , confHigh := a.confHigh + b.confHigh }

/-- The all-zero Metrics record. -/
def zeroM : MetricsRec := {}

/-- Modelled from the spec: the running `_totals` accumulation of
`bandit.core.metrics` is not in `src/`.  Per spec section 4.5: per-file records
are folded left-to-right into the totals record, never recomputed from
scratch. -/
def accumulate (files : List MetricsRec) : MetricsRec :=
  files.foldl addM zeroM

/-- Totals obtained by processing files in batches: accumulate each batch,
then accumulate the batch totals. -/
def batchTotals (batches : List (List MetricsRec)) : MetricsRec :=
  (batches.map accumulate).foldl addM zeroM

/-- Outcome of handing one file's source text to the external parser. -/
inductive ParseResult
  | ok (nodes : List Node)
  | err
deriving DecidableEq, Repr

/-- One input file: its parse outcome and the set of lines carrying a
suppression directive. -/
structure FileInput where
  parse : ParseResult
  nosec : List Nat
deriving DecidableEq, Repr

/-- Aggregate run state: skipped-file count and the Issues surfaced so far. -/
structure RunState where
  skipped : Nat
  issues : List Issue
deriving DecidableEq, Repr

/-- Modelled from the spec: the per-file step of `bandit.core.manager` is not
in `src/`.  Per spec sections 4.4 and 7: a file whose parse fails is counted
as skipped and contributes no Issues; a parsed file is walked and its Issues
appended. -/
def processFile (evalNode : Node → List Issue) (st : RunState) (f : FileInput) :
    RunState :=
  match f.parse with
  | ParseResult.err => { st with skipped := st.skipped + 1 }
  | ParseResult.ok nodes =>
    { st with issues := st.issues ++ visitFile evalNode nodes f.nosec }

/-- Modelled from the spec: the run loop of `bandit.core.manager` is not in
`src/`.  Files are processed in order from an empty initial state. -/
def runAll (evalNode : Node → List Issue) (files : List FileInput) : RunState :=
  files.foldl (processFile evalNode) { skipped := 0, issues := [] }

/-- Whether a parse outcome is a failure. -/
def isErr : ParseResult → Bool
  | ParseResult.err => true
  | _ => false

/-- The Issues one file contributes to the run. -/
def fileIssues (evalNode : Node → List Issue) (f : FileInput) : List Issue :=
  match f.parse with
  | ParseResult.err => []
  | ParseResult.ok nodes => visitFile evalNode nodes f.nosec

/-- `qualnamesMatch` holds exactly when some qualified name equals the
resolved name. -/
theorem qualnamesMatch_iff (qs : List String) (n : String) :
    qualnamesMatch qs n = true ↔ ∃ q ∈ qs, q = n := by
  induction qs with
  | nil => simp [qualnamesMatch]
  | cons q qs ih =>
    simp only [qualnamesMatch, Bool.or_eq_true, beq_iff_eq, ih, List.mem_cons]
    constructor
    · rintro (h | ⟨x, hx, rfl⟩)
      exacts [⟨q, Or.inl rfl, h⟩, ⟨x, Or.inr hx, rfl⟩]
    · rintro ⟨x, (rfl | hx), rfl⟩
      exacts [Or.inl rfl, Or.inr ⟨x, hx, rfl⟩]

/-- The blocklist evaluation is one `report_issue` per matching entry, in
table order. -/
theorem blocklistEval_eq_filter_map (table : List BlEntry) (n : String) :
    blocklistEval table n =
      (table.filter (fun e => qualnamesMatch e.qualnames n)).map
        (fun e => report_issue e n) := by
  induction table with
  | nil => rfl
  | cons e rest ih =>
    by_cases h : qualnamesMatch e.qualnames n = true
    · simp [blocklistEval, List.filter_cons, h, ih]
    · simp [blocklistEval, List.filter_cons, h, ih]

/-- Two lawful boolean equality tests agree in either order. -/
theorem beqComm {α : Type _} [BEq α] [LawfulBEq α] (a b : α) :
    (a == b) = (b == a) := by
  by_cases h : a = b
  · subst h; rfl
  · rw [beq_eq_false_iff_ne.mpr h, beq_eq_false_iff_ne.mpr (Ne.symm h)]

/-- Every string is a character-suffix of itself. -/
theorem sfx_self (s : String) : sfx s s = true := by
  simp [sfx]

/-- Path matching is symmetric. -/
theorem pathMatch_comm (a b : String) : pathMatch a b = pathMatch b a :=
  Bool.or_comm _ _

/-- Metrics addition is associative. -/
theorem addM_assoc (a b c : MetricsRec) : addM (addM a b) c = addM a (addM b c) := by
  simp [addM, Nat.add_assoc]

/-- Metrics addition is commutative. -/
theorem addM_comm (a b : MetricsRec) : addM a b = addM b a := by
  simp [addM, Nat.add_comm]

/-- The zero record is a right identity. -/
theorem addM_zero (a : MetricsRec) : addM a zeroM = a := by
  cases a
  simp [addM, zeroM]

/-- The zero record is a left identity. -/
theorem zero_addM (a : MetricsRec) : addM zeroM a = a := by
  cases a
  simp [addM, zeroM]

/-- A summand on the left of the accumulator can be pulled out of the fold. -/
theorem foldl_addM_pull (l : List MetricsRec) (a b : MetricsRec) :
    l.foldl addM (addM a b) = addM a (l.foldl addM b) := by
  induction l generalizing b with
  | nil => rfl
  | cons x xs ih =>
    rw [List.foldl_cons, addM_assoc, ih, List.foldl_cons]

/-- Folding from an arbitrary start equals adding the accumulated rest. -/
theorem foldl_addM_init (l : List MetricsRec) (s : MetricsRec) :
    l.foldl addM s = addM s (accumulate l) := by
  have h := foldl_addM_pull l s zeroM
  rwa [addM_zero] at h

/-- Accumulation peels the head record off. -/
theorem accumulate_cons (x : MetricsRec) (l : List MetricsRec) :
    accumulate (x :: l) = addM x (accumulate l) := by
  rw [accumulate, List.foldl_cons, zero_addM, foldl_addM_init]

/-- Accumulation distributes over concatenation. -/
theorem accumulate_append (l1 l2 : List MetricsRec) :
    accumulate (l1 ++ l2) = addM (accumulate l1) (accumulate l2) := by
  rw [accumulate, List.foldl_append, ← accumulate, foldl_addM_init]

/-- Accumulation is invariant under permutation of the per-file records. -/
theorem accumulate_perm (l l' : List MetricsRec) (hp : l.Perm l') :
    accumulate l = accumulate l' := by
  induction hp with
  | nil => rfl
  | cons x p ih => rw [accumulate_cons, accumulate_cons, ih]
  | swap x y l =>
    rw [accumulate_cons, accumulate_cons, accumulate_cons, accumulate_cons,
      ← addM_assoc, addM_comm y x, addM_assoc]
  | trans p q ih1 ih2 => rw [ih1, ih2]

/-- A kind that is not a key of the dispatch table looks up to the empty
sequence. -/
theorem get_tests_nil_of_not_key (t : List (String × List TestRule)) (k : String)
    (h : k ∉ t.map Prod.fst) : get_tests t k = [] := by
  induction t with
  | nil => rfl
  | cons kv rest ih =>
    simp only [List.map_cons, List.mem_cons, not_or] at h
    have hne : ¬((kv.1 == k) = true) := fun hc => h.1 (eq_of_beq hc).symm
    rw [get_tests, if_neg hne]
    exact ih h.2

/-- Inserting under a different kind does not add `k` to the key set. -/
theorem mem_keys_tableAdd (t : List (String × List TestRule)) (k k' : String)
    (tr : TestRule) (hne : k ≠ k') (h : k ∉ t.map Prod.fst) :
    k ∉ (tableAdd t k' tr).map Prod.fst := by
  induction t with
  | nil => simp [tableAdd, hne]
  | cons kv rest ih =>
    simp only [List.map_cons, List.mem_cons, not_or] at h
    rw [tableAdd]
    by_cases hk : (kv.1 == k') = true
    · rw [if_pos hk]
      simp only [List.map_cons, List.mem_cons, not_or]
      exact ⟨h.1, h.2⟩
    · rw [if_neg hk]
      simp only [List.map_cons, List.mem_cons, not_or]
      exact ⟨h.1, ih h.2⟩

/-- Registering one rule under a list of kinds avoiding `k` keeps `k`
unregistered. -/
theorem keys_foldl_tableAdd (ks : List String) (tr : TestRule) (k : String) :
    ∀ t : List (String × List TestRule), k ∉ ks → k ∉ t.map Prod.fst →
      k ∉ ((ks.foldl (fun acc k' => tableAdd acc k' tr) t).map Prod.fst) := by
  induction ks with
  | nil => exact fun t _ h => h
  | cons k' ks ih =>
    intro t hks h
    simp only [List.mem_cons, not_or] at hks
    rw [List.foldl_cons]
    exact ih _ hks.2 (mem_keys_tableAdd t k k' tr hks.1 h)

/-- Registering rules none of which trigger on `k` keeps `k` unregistered. -/
theorem keys_foldl_addRuleKinds (rs : List Rule) (k : String) :
    ∀ t : List (String × List TestRule), (∀ r ∈ rs, k ∉ r.kinds) →
      k ∉ t.map Prod.fst → k ∉ ((rs.foldl addRuleKinds t).map Prod.fst) := by
  induction rs with
  | nil => exact fun t _ h => h
  | cons r rs ih =>
    intro t hr h
    rw [List.foldl_cons]
    exact ih _ (fun x hx => hr x (List.mem_cons_of_mem _ hx))
      (keys_foldl_tableAdd r.kinds (TestRule.ordinary r) k t
        (hr r (List.mem_cons_self _ _)) h)

/-- Blocklist registration with no surviving entries for `k` keeps `k`
unregistered. -/
theorem keys_foldl_blStep (inc exc : List String) (bl : List (String × List BlEntry))
    (k : String) :
    ∀ t : List (String × List TestRule),
      (∀ kv ∈ bl, kv.1 = k → filterEntries inc exc kv.2 = []) →
      k ∉ t.map Prod.fst → k ∉ ((bl.foldl (blStep inc exc) t).map Prod.fst) := by
  induction bl with
  | nil => exact fun t _ h => h
  | cons kv rest ih =>
    intro t hb h
    rw [List.foldl_cons]
    refine ih _ (fun x hx hxk => hb x (List.mem_cons_of_mem _ hx) hxk) ?_
    by_cases he : (filterEntries inc exc kv.2).isEmpty = true
    · rw [blStep, if_pos he]
      exact h
    · have hne : k ≠ kv.1 := by
        intro hkk
        have h0 := hb kv (List.mem_cons_self _ _) hkk.symm
        rw [h0] at he
        exact he rfl
      rw [blStep, if_neg he]
      exact mem_keys_tableAdd t k kv.1 _ hne h

/-- Closed form of the run loop: skipped counts the parse failures, issues is
the concatenation of the per-file issue lists. -/
theorem runAll_foldl_closed (evalNode : Node → List Issue) (files : List FileInput)
    (st : RunState) :
    files.foldl (processFile evalNode) st =
      { skipped := st.skipped + (files.filter (fun f => isErr f.parse)).length
      , issues := st.issues ++ (files.map (fileIssues evalNode)).flatten } := by
  induction files generalizing st with
  | nil => simp
  | cons f fs ih =>
    rw [List.foldl_cons, ih]
    cases hf : f.parse with
    | ok nodes =>
      simp [processFile, hf, fileIssues, isErr, List.filter_cons]
    | err =>
      simp [processFile, hf, fileIssues, isErr, List.filter_cons]
      omega

/-- C1: the blocklist evaluation emits an Issue for an entry iff the node's
resolved fully-qualified name is exactly equal to some member of the entry's
qualified-names set; an entry none of whose names equals the resolved name
(in particular one whose names are only proper prefixes, suffixes or
substrings of it) never triggers; when several entries match, one Issue is
emitted per matching entry. -/
theorem C1_blocklist_exact_match (table : List BlEntry) (n : String) :
    blocklistEval table n =
      (table.filter (fun e => qualnamesMatch e.qualnames n)).map
        (fun e => report_issue e n) ∧
    (∀ e : BlEntry, qualnamesMatch e.qualnames n = true ↔ ∃ q ∈ e.qualnames, q = n) ∧
    (blocklistEval table n).length =
      (table.filter (fun e => qualnamesMatch e.qualnames n)).length ∧
    (∀ e ∈ table, (∀ q ∈ e.qualnames, q ≠ n) → blocklistEval [e] n = []) := by
  refine ⟨blocklistEval_eq_filter_map table n,
    fun e => qualnamesMatch_iff e.qualnames n, ?_, ?_⟩
  · rw [blocklistEval_eq_filter_map, List.length_map]
  · intro e _ hq
    have h0 : qualnamesMatch e.qualnames n = false := by
      rw [← Bool.not_eq_true, qualnamesMatch_iff]
      rintro ⟨q, hmem, rfl⟩
      exact hq q hmem rfl
    simp [blocklistEval, h0]

/-- Witness for C1: an entry listing only `chmodx` is not triggered by the
resolved name `os.chmod`, of which `chmodx` is not an exact match. -/
theorem C1_witness :
    blocklistEval [{ name := "os", qualnames := ["chmodx"], message := "m {name}" }]
      "os.chmod" = [] := by
  refine (C1_blocklist_exact_match
    [{ name := "os", qualnames := ["chmodx"], message := "m {name}" }]
    "os.chmod").2.2.2 _ (by simp) ?_
  intro q hq
  simp at hq
  subst hq
  decide

/-- C2: profile filtering keeps exactly the identifiers of a non-empty
include (exclude is then ignored); otherwise it drops exactly the identifiers
of the exclude list; with both empty everything survives. -/
theorem C2_profile_filter (inc exc : List String) (rules : List Rule)
    (es : List BlEntry) :
    (inc ≠ [] →
      (∀ r : Rule, r ∈ filterRules inc exc rules ↔ r ∈ rules ∧ r.id ∈ inc) ∧
      (∀ e : BlEntry, e ∈ filterEntries inc exc es ↔ e ∈ es ∧ entryId e ∈ inc)) ∧
    (inc = [] → exc ≠ [] →
      (∀ r : Rule, r ∈ filterRules inc exc rules ↔ r ∈ rules ∧ r.id ∉ exc) ∧
      (∀ e : BlEntry, e ∈ filterEntries inc exc es ↔ e ∈ es ∧ entryId e ∉ exc)) ∧
    (inc = [] → exc = [] →
      filterRules inc exc rules = rules ∧ filterEntries inc exc es = es) := by
  refine ⟨?_, ?_, ?_⟩
  · intro hinc
    have h : inc.isEmpty = false := by
      cases inc with
      | nil => exact absurd rfl hinc
      | cons a l => rfl
    constructor
    · intro r
      simp [filterRules, List.mem_filter, keepId, h]
    · intro e
      simp [filterEntries, List.mem_filter, keepId, h]
  · intro hinc _
    subst hinc
    constructor
    · intro r
      simp [filterRules, List.mem_filter, keepId]
    · intro e
      simp [filterEntries, List.mem_filter, keepId]
  · intro hinc hexc
    subst hinc; subst hexc
    constructor
    · simp [filterRules, keepId, List.filter_eq_self]
    · simp [filterEntries, keepId, List.filter_eq_self]

/-- Witness for C2: with include `[B000]` a rule survives iff its id is
`B000`, even though the exclude list also names `B000`. -/
theorem C2_witness :
    (⟨"B000", ["Str"]⟩ : Rule) ∈ filterRules ["B000"] ["B000"] [⟨"B000", ["Str"]⟩] ↔
      (⟨"B000", ["Str"]⟩ : Rule) ∈ [(⟨"B000", ["Str"]⟩ : Rule)] ∧
        "B000" ∈ ["B000"] :=
  ((C2_profile_filter ["B000"] ["B000"] [⟨"B000", ["Str"]⟩] []).1 (by simp)).1 _

/-- C3: for a chmod call with exactly two arguments whose second, positional
argument is a literal integer mode: a mode with the world-writable bit yields
exactly one HIGH-severity Issue; with the group-executable bit but not the
world-writable bit, exactly one MEDIUM-severity Issue; with neither bit, no
Issue; and a non-literal-integer second argument yields no Issue. -/
theorem C3_bad_file_permissions_modes (name : String) (a0 : ArgLit)
    (hn : strContains name "chmod" = true) :
    (∀ mode : Nat, mode &&& S_IWOTH ≠ 0 →
      ∃ iss, set_bad_file_permissions ⟨name, [a0, ArgLit.intLit mode]⟩ = some iss ∧
        iss.severity = RankLevel.HIGH) ∧
    (∀ mode : Nat, mode &&& S_IWOTH = 0 → mode &&& S_IXGRP ≠ 0 →
      ∃ iss, set_bad_file_permissions ⟨name, [a0, ArgLit.intLit mode]⟩ = some iss ∧
        iss.severity = RankLevel.MEDIUM) ∧
    (∀ mode : Nat, mode &&& S_IWOTH = 0 → mode &&& S_IXGRP = 0 →
      set_bad_file_permissions ⟨name, [a0, ArgLit.intLit mode]⟩ = none) ∧
    (∀ s, set_bad_file_permissions ⟨name, [a0, ArgLit.strLit s]⟩ = none) ∧
    set_bad_file_permissions ⟨name, [a0, ArgLit.nonLiteral]⟩ = none := by
  refine ⟨?_, ?_, ?_, ?_, ?_⟩
  · intro mode h
    have hb : (mode &&& S_IWOTH != 0) = true := by simpa [bne_iff_ne] using h
    simp [set_bad_file_permissions, CallCtx.call_args_count,
      get_call_arg_at_position, hn, hb]
  · intro mode h1 h2
    have hb1 : (mode &&& S_IWOTH != 0) = false := by simp [h1]
    have hb2 : (mode &&& S_IXGRP != 0) = true := by simpa [bne_iff_ne] using h2
    simp [set_bad_file_permissions, CallCtx.call_args_count,
      get_call_arg_at_position, hn, hb1, hb2]
  · intro mode h1 h2
    have hb1 : (mode &&& S_IWOTH != 0) = false := by simp [h1]
    have hb2 : (mode &&& S_IXGRP != 0) = false := by simp [h2]
    simp [set_bad_file_permissions, CallCtx.call_args_count,
      get_call_arg_at_position, hn, hb1, hb2]
  · intro s
    simp [set_bad_file_permissions, CallCtx.call_args_count,
      get_call_arg_at_position, hn]
  · simp [set_bad_file_permissions, CallCtx.call_args_count,
      get_call_arg_at_position, hn]

/-- Witness for C3: `os.chmod(key_file, 0o777)` yields one HIGH-severity
Issue. -/
theorem C3_witness :
    strContains "os.chmod" "chmod" = true ∧
    (∃ iss, set_bad_file_permissions
        ⟨"os.chmod", [ArgLit.strLit "key_file", ArgLit.intLit 511]⟩ = some iss ∧
      iss.severity = RankLevel.HIGH) :=
  ⟨by decide, (C3_bad_file_permissions_modes "os.chmod" (ArgLit.strLit "key_file")
    (by decide)).1 511 (by decide)⟩

/-- C4: `matches` is symmetric, holds whenever rule id, file path and message
text are equal regardless of line numbers, and baseline filtering keeps
exactly the current Issues matching no baseline Issue, in their original
relative order. -/
theorem C4_matches_baseline (a b : Issue) (baseline current : List Issue) :
    Issue.matches a b = Issue.matches b a ∧
    (a.test_id = b.test_id → a.fname = b.fname → a.text = b.text →
      Issue.matches a b = true) ∧
    (∀ i : Issue, i ∈ baselineFilter baseline current ↔
      i ∈ current ∧ ∀ bl ∈ baseline, Issue.matches i bl = false) ∧
    (baselineFilter baseline current).Sublist current := by
  refine ⟨?_, ?_, ?_, List.filter_sublist _⟩
  · have h1 : (a.test_id == b.test_id) = (b.test_id == a.test_id) := beqComm _ _
    have h2 : (a.text == b.text) = (b.text == a.text) := beqComm _ _
    simp only [Issue.matches]
    rw [h1, h2, pathMatch_comm]
  · intro h1 h2 h3
    simp [Issue.matches, h1, h2, h3, pathMatch, sfx_self]
  · intro i
    simp [baselineFilter, List.mem_filter, Bool.not_eq_true', List.any_eq_false]

/-- Witness for C4: two Issues with equal rule id, file and text but distinct
line numbers match. -/
theorem C4_witness :
    Issue.matches
      { test_id := "B201", severity := RankLevel.HIGH, confidence := RankLevel.MEDIUM,
        text := "dbg", fname := "examples/flask_debug.py", lineno := 10 }
      { test_id := "B201", severity := RankLevel.HIGH, confidence := RankLevel.MEDIUM,
        text := "dbg", fname := "examples/flask_debug.py", lineno := 99 } = true :=
  (C4_matches_baseline _ _ [] []).2.1 rfl rfl rfl

/-- C5: adding a suppression directive on line `L` removes exactly the Issues
whose primary line is `L` and leaves every other Issue of the file unchanged;
reading the equation right-to-left, removing the directive restores them. -/
theorem C5_nosec_suppression (evalNode : Node → List Issue) (nodes : List Node)
    (L : Nat) (S : List Nat) (hL : L ∉ S)
    (hline : ∀ nd : Node, ∀ i ∈ evalNode nd, i.lineno = nd.lineno) :
    visitFile evalNode nodes (L :: S) =
      (visitFile evalNode nodes S).filter (fun i => i.lineno != L) := by
  induction nodes with
  | nil => rfl
  | cons nd rest ih =>
    rw [visitFile, visitFile, List.filter_append, ← ih]
    congr 1
    by_cases h : nd.lineno = L
    · have hc1 : (L :: S).contains nd.lineno = true := by simp [h]
      have hc2 : S.contains nd.lineno = false := by
        subst h; simp [hL]
      rw [hc1, hc2]
      simp only [if_true, if_false, Bool.false_eq_true, if_neg]
      rw [eq_comm, List.filter_eq_nil_iff]
      intro i hi
      rw [hline nd i hi, h]
      simp
    · by_cases hmem : nd.lineno ∈ S
      · have hc1 : (L :: S).contains nd.lineno = true := by simp [hmem]
        have hc2 : S.contains nd.lineno = true := by simp [hmem]
        rw [hc1, hc2]
        simp
      · have hc1 : (L :: S).contains nd.lineno = false := by
          simp [h, hmem]
        have hc2 : S.contains nd.lineno = false := by simp [hmem]
        rw [hc1, hc2]
        simp only [Bool.false_eq_true, if_neg]
        rw [eq_comm, List.filter_eq_self]
        intro i hi
        rw [hline nd i hi]
        simp [h]

/-- Witness for C5: suppressing line 2 of a two-node file removes exactly the
line-2 Issue. -/
theorem C5_witness :
    visitFile (fun nd => [{ test_id := "B101", severity := RankLevel.LOW,
                            confidence := RankLevel.HIGH, text := "t",
                            lineno := nd.lineno }])
      [⟨1⟩, ⟨2⟩] [2] =
    (visitFile (fun nd => [{ test_id := "B101", severity := RankLevel.LOW,
                             confidence := RankLevel.HIGH, text := "t",
                             lineno := nd.lineno }])
      [⟨1⟩, ⟨2⟩] []).filter (fun i => i.lineno != 2) := by
  refine C5_nosec_suppression _ [⟨1⟩, ⟨2⟩] 2 [] (by simp) ?_
  intro nd i hi
  simp only [List.mem_singleton] at hi
  subst hi
  rfl

/-- C6: the totals record is the element-wise sum of the per-file records for
any partition of the files into batches, and is insensitive to processing
order. -/
theorem C6_metrics_totals (batches : List (List MetricsRec))
    (l l' : List MetricsRec) (hp : l.Perm l') :
    batchTotals batches = accumulate batches.flatten ∧
    accumulate l = accumulate l' := by
  refine ⟨?_, accumulate_perm l l' hp⟩
  induction batches with
  | nil => rfl
  | cons b bs ih =>
    rw [List.flatten_cons, accumulate_append, ← ih, batchTotals, List.map_cons,
      List.foldl_cons, zero_addM, foldl_addM_init]
    rfl

/-- Witness for C6: a concrete two-batch partition and a concrete swap of two
per-file records. -/
theorem C6_witness :
    batchTotals ([[{ loc := 3 }], [{ nosec := 1 }, { loc := 4 }]] :
        List (List MetricsRec)) =
      accumulate ([[{ loc := 3 }], [{ nosec := 1 }, { loc := 4 }]] :
        List (List MetricsRec)).flatten ∧
    accumulate [({ loc := 3 } : MetricsRec), { nosec := 1 }] =
      accumulate [({ nosec := 1 } : MetricsRec), { loc := 3 }] :=
  C6_metrics_totals _ _ _
    (List.Perm.swap ({ nosec := 1 } : MetricsRec) ({ loc := 3 } : MetricsRec) [])

/-- C7: a node kind with no surviving ordinary rule and no surviving
blocklist entry after profile filtering looks up to the empty sequence, and
the kind is absent from the dispatch table altogether. -/
theorem C7_empty_kind (inc exc : List String) (rules : List Rule)
    (bl : List (String × List BlEntry)) (k : String)
    (hr : ∀ r ∈ filterRules inc exc rules, k ∉ r.kinds)
    (hb : ∀ kv ∈ bl, kv.1 = k → filterEntries inc exc kv.2 = []) :
    get_tests (buildRegistry inc exc rules bl) k = [] ∧
    k ∉ ((buildRegistry inc exc rules bl).map Prod.fst) := by
  have hkeys : k ∉ ((buildRegistry inc exc rules bl).map Prod.fst) := by
    rw [buildRegistry]
    exact keys_foldl_blStep inc exc bl k _ hb
      (keys_foldl_addRuleKinds _ k _ hr (by simp))
  exact ⟨get_tests_nil_of_not_key _ k hkeys, hkeys⟩

/-- Witness for C7: excluding both builtin entries of the Import kind leaves
the kind unregistered and its lookup empty. -/
theorem C7_witness :
    get_tests (buildRegistry [] ["B401", "B302"] [⟨"B000", ["Str"]⟩]
      [("Import", [{ name := "telnet", id := some "B401", qualnames := ["telnetlib"],
                     level := some RankLevel.HIGH, message := "telnet {name}" },
                   { name := "marshal", id := some "B302",
                     qualnames := ["marshal.load", "marshal.loads"],
                     message := "marshal {name}" }])]) "Import" = [] ∧
    "Import" ∉ ((buildRegistry [] ["B401", "B302"] [⟨"B000", ["Str"]⟩]
      [("Import", [{ name := "telnet", id := some "B401", qualnames := ["telnetlib"],
                     level := some RankLevel.HIGH, message := "telnet {name}" },
                   { name := "marshal", id := some "B302",
                     qualnames := ["marshal.load", "marshal.loads"],
                     message := "marshal {name}" }])]).map Prod.fst) :=
  C7_empty_kind _ _ _ _ _ (by decide) (by decide)

/-- C8: a file whose source cannot be parsed is counted as skipped
(incrementing the count by exactly one), contributes zero Issues, and the
remaining files are processed exactly as without it. -/
theorem C8_parse_failure_skip (evalNode : Node → List Issue)
    (pre post : List FileInput) (ns : List Nat) :
    (runAll evalNode (pre ++ ⟨ParseResult.err, ns⟩ :: post)).skipped =
      (runAll evalNode (pre ++ post)).skipped + 1 ∧
    (runAll evalNode (pre ++ ⟨ParseResult.err, ns⟩ :: post)).issues =
      (runAll evalNode (pre ++ post)).issues := by
  rw [runAll, runAll, runAll_foldl_closed, runAll_foldl_closed]
  constructor
  · simp [List.filter_append, List.filter_cons, isErr]
    omega
  · simp [List.map_append, List.flatten_append, fileIssues]

/-- C9: the blocklist Issue has confidence HIGH unconditionally, message the
entry's template with the matched name substituted, severity the entry's
level defaulting to MEDIUM, and rule id the entry's id defaulting to
`LEGACY`. -/
theorem C9_report_issue_fields (data : BlEntry) (nm : String) :
    (report_issue data nm).confidence = RankLevel.HIGH ∧
    (report_issue data nm).text = data.message.replace "{name}" nm ∧
    (∀ lv, data.level = some lv → (report_issue data nm).severity = lv) ∧
    (data.level = none → (report_issue data nm).severity = RankLevel.MEDIUM) ∧
    (∀ i, data.id = some i → (report_issue data nm).test_id = i) ∧
    (data.id = none → (report_issue data nm).test_id = "LEGACY") := by
  refine ⟨rfl, rfl, ?_, ?_, ?_, ?_⟩
  · intro lv h; simp [report_issue, h]
  · intro h; simp [report_issue, h]
  · intro i h; simp [report_issue, h]
  · intro h; simp [report_issue, h]

/-- Witness for C9: the unit-test entries, with and without explicit level
and id. -/
theorem C9_witness :
    (report_issue { name := "x", id := some "B000", level := some RankLevel.HIGH,
                    message := "test {name}" } "name").severity = RankLevel.HIGH ∧
    (report_issue { name := "x", message := "test {name}" } "name").test_id =
      "LEGACY" :=
  ⟨(C9_report_issue_fields _ "name").2.2.1 RankLevel.HIGH rfl,
    (C9_report_issue_fields _ "name").2.2.2.2.2 rfl⟩

/-- C10: the B103 rule produces an Issue only when the called function's name
contains the substring `chmod` and the call has exactly two arguments; and
any function whose name contains `chmod` is examined (a world-writable mode
then triggers it). -/
theorem C10_chmod_guard (ctx : CallCtx) :
    (set_bad_file_permissions ctx ≠ none →
      strContains ctx.call_function_name "chmod" = true ∧
        ctx.call_args.length = 2) ∧
    (∀ (name : String) (a0 : ArgLit), strContains name "chmod" = true →
      set_bad_file_permissions ⟨name, [a0, ArgLit.intLit S_IWOTH]⟩ ≠ none) := by
  constructor
  · intro h
    by_cases hn : strContains ctx.call_function_name "chmod" = true
    · refine ⟨hn, ?_⟩
      by_cases hc : ctx.call_args.length = 2
      · exact hc
      · exfalso
        apply h
        simp [set_bad_file_permissions, CallCtx.call_args_count, hn, hc]
    · exfalso
      apply h
      simp [set_bad_file_permissions, Bool.not_eq_true _ ▸ hn]
  · intro name a0 hn
    simp [set_bad_file_permissions, CallCtx.call_args_count,
      get_call_arg_at_position, hn, S_IWOTH]

/-- Witness for C10: a wrapper name containing `chmod` with a world-writable
literal mode is examined and fires, and the guard conditions hold there. -/
theorem C10_witness :
    (strContains "my_chmod_wrapper" "chmod" = true ∧
      ([ArgLit.nonLiteral, ArgLit.intLit S_IWOTH] : List ArgLit).length = 2) ∧
    set_bad_file_permissions
      ⟨"my_chmod_wrapper", [ArgLit.nonLiteral, ArgLit.intLit S_IWOTH]⟩ ≠ none := by
  constructor
  · exact (C10_chmod_guard
      ⟨"my_chmod_wrapper", [ArgLit.nonLiteral, ArgLit.intLit S_IWOTH]⟩).1 (by decide)
  · exact (C10_chmod_guard
      ⟨"my_chmod_wrapper", [ArgLit.nonLiteral, ArgLit.intLit S_IWOTH]⟩).2
      "my_chmod_wrapper" ArgLit.nonLiteral (by decide)

end Bandit
